import Mathlib

/-!
Verification of the storage layer of the `pipeline-tools` repository
(`src/pipeline_tools/storage.py` and its CLI callers).

The development shallowly embeds the storage module: the migration runner,
the entity repositories (create/list/exists), the reporting aggregator and
the path resolver are translated from `storage.py`; the update/delete/purge
operations, whose definitions are imported by the CLI modules but are not
present in the provided storage module, are modelled from the specification
(each such definition carries a doc comment saying so).
-/

set_option maxRecDepth 10000

namespace PipelineTools

/-! ## Migration runner (`storage.py`, `MIGRATIONS` / `_apply_migrations`) -/

/-- Checks that `needle` occurs at the head of `hay` (character lists). -/
def charsPrefixOf : List Char → List Char → Bool
  | [], _ => true
  | _ :: _, [] => false
  | a :: as, b :: bs => a == b && charsPrefixOf as bs

/-- Checks that `needle` occurs somewhere inside `hay` (character lists);
this is Python's substring test `needle in hay`. -/
def charsContains (needle : List Char) : List Char → Bool
  | [] => charsPrefixOf needle []
  | b :: bs => charsPrefixOf needle (b :: bs) || charsContains needle bs

/-- Python's `needle in hay` on strings. -/
def strContains (hay needle : String) : Bool :=
  charsContains needle.data hay.data

/-- Migration script 1 of `MIGRATIONS`. -/
def script1 : String :=
  "CREATE TABLE IF NOT EXISTS schema_migrations (version INTEGER PRIMARY KEY); INSERT INTO schema_migrations (version) VALUES (1);"

/-- Migration script 2 of `MIGRATIONS`. -/
def script2 : String :=
  "CREATE TABLE IF NOT EXISTS assets (id INTEGER PRIMARY KEY AUTOINCREMENT, name TEXT NOT NULL, asset_type TEXT NOT NULL, status TEXT NOT NULL, created_at TEXT NOT NULL); INSERT INTO schema_migrations (version) VALUES (2);"

/-- Migration script 3 of `MIGRATIONS`. -/
def script3 : String :=
  "CREATE TABLE IF NOT EXISTS approvals (id INTEGER PRIMARY KEY AUTOINCREMENT, asset_id INTEGER NOT NULL, status TEXT NOT NULL, note TEXT, created_at TEXT NOT NULL, FOREIGN KEY(asset_id) REFERENCES assets(id)); INSERT INTO schema_migrations (version) VALUES (3);"

/-- Migration script 4 of `MIGRATIONS`. -/
def script4 : String :=
  "CREATE TABLE IF NOT EXISTS schedules (id INTEGER PRIMARY KEY AUTOINCREMENT, asset_id INTEGER NOT NULL, task TEXT NOT NULL, due_date TEXT NOT NULL, status TEXT NOT NULL, created_at TEXT NOT NULL, FOREIGN KEY(asset_id) REFERENCES assets(id)); INSERT INTO schema_migrations (version) VALUES (4);"

/-- Migration script 5 of `MIGRATIONS`. -/
def script5 : String :=
  "CREATE TABLE IF NOT EXISTS projects (id INTEGER PRIMARY KEY AUTOINCREMENT, name TEXT NOT NULL, code TEXT NOT NULL, created_at TEXT NOT NULL); INSERT INTO schema_migrations (version) VALUES (5);"

/-- Migration script 6 of `MIGRATIONS`. -/
def script6 : String :=
  "CREATE TABLE IF NOT EXISTS shots (id INTEGER PRIMARY KEY AUTOINCREMENT, project_id INTEGER NOT NULL, code TEXT NOT NULL, name TEXT NOT NULL, created_at TEXT NOT NULL, FOREIGN KEY(project_id) REFERENCES projects(id)); INSERT INTO schema_migrations (version) VALUES (6);"

/-- Migration script 7 of `MIGRATIONS`: the assets column-addition script. -/
def script7 : String :=
  "ALTER TABLE assets ADD COLUMN project_id INTEGER REFERENCES projects(id); ALTER TABLE assets ADD COLUMN shot_id INTEGER REFERENCES shots(id); INSERT INTO schema_migrations (version) VALUES (7);"

/-- Migration script 8 of `MIGRATIONS`. -/
def script8 : String :=
  "CREATE TABLE IF NOT EXISTS tasks (id INTEGER PRIMARY KEY AUTOINCREMENT, asset_id INTEGER NOT NULL, name TEXT NOT NULL, status TEXT NOT NULL, assignee TEXT, due_date TEXT, created_at TEXT NOT NULL, FOREIGN KEY(asset_id) REFERENCES assets(id)); INSERT INTO schema_migrations (version) VALUES (8);"

/-- The ordered migration registry of `storage.py` (`MIGRATIONS`). -/
def MIGRATIONS : List (Nat × String) :=
  [(1, script1), (2, script2), (3, script3), (4, script4),
   (5, script5), (6, script6), (7, script7), (8, script8)]

/-- State of the `schema_migrations` bookkeeping table: the list of
version rows it holds (an absent table and an empty table both read
back as current version 0, so one list models both). -/
abbrev MigState := List Nat

/-- The maximum recorded version, 0 when no row exists
(`storage._current_version`). -/
def _current_version (st : MigState) : Nat :=
  st.foldr Nat.max 0

/-- Outcome of a migration run: either the run returned an applied count
with a final bookkeeping state, or a script error propagated, leaving the
bookkeeping state as it stood when the error was raised. -/
inductive MigResult where
  | ok (applied : Nat) (st : MigState)
  | err (st : MigState)
deriving DecidableEq, Repr

/-- The loop body of `storage._apply_migrations`. `fails v = true` means
the engine raises an operational error when the script of version `v` is
executed (in the source, a `sqlite3.OperationalError`). A successful
script appends its version row (its last statement is the
`INSERT INTO schema_migrations` of its version); a failing script appends
nothing. The error is swallowed exactly when the script text contains
the column-addition marker, and `applied` is incremented in both the
success branch and the swallowed-error branch, as in the source. -/
def applyLoop (fails : Nat → Bool) (current : Nat) :
    List (Nat × String) → Nat → MigState → MigResult
  | [], applied, st => .ok applied st
  | (version, script) :: rest, applied, st =>
    if version ≤ current then
      applyLoop fails current rest applied st
    else if fails version then
      if strContains script "ALTER TABLE assets ADD COLUMN" then
        applyLoop fails current rest (applied + 1) st
      else
        .err st
    else
      applyLoop fails current rest (applied + 1) (st ++ [version])

/-- `storage._apply_migrations`: reads the current version once, then
walks the registry in order. -/
def _apply_migrations (fails : Nat → Bool) (st : MigState) : MigResult :=
  applyLoop fails (_current_version st) MIGRATIONS 0 st

/-- The highest registered migration version. -/
def LATEST_VERSION : Nat :=
  (MIGRATIONS.map Prod.fst).foldr Nat.max 0

/-! ## Path resolution (`storage.default_db_path` / `storage.resolve_db_path`) -/

/-- The default datastore directory (`~/.pipely`). -/
def DEFAULT_DB_DIR : String := "~/.pipely"

/-- The default datastore file name. -/
def DEFAULT_DB_NAME : String := "pipely.db"

/-- `storage.default_db_path`: the `PIPELY_DB` environment variable wins
when it is set to a non-empty string (Python truthiness of the value of
`os.environ.get`), otherwise the default user-scoped location is used. -/
def default_db_path (env : Option String) : String :=
  match env with
  | some override => if override ≠ "" then override else DEFAULT_DB_DIR ++ "/" ++ DEFAULT_DB_NAME
  | none => DEFAULT_DB_DIR ++ "/" ++ DEFAULT_DB_NAME

/-- `storage.resolve_db_path`: an explicitly passed path argument is used
(the source applies `expanduser` to it, elided here where paths are
opaque strings); only when no argument is passed does `default_db_path`
(and hence the environment override) apply. -/
def resolve_db_path (env : Option String) (db_path : Option String) : String :=
  match db_path with
  | some p => p
  | none => default_db_path env

/-! ## Entity tables

Each SQLite table is a list of rows plus the AUTOINCREMENT sequence
(the next rowid to assign; AUTOINCREMENT never reuses an id of a
deleted row). -/

/-- Row of the `projects` table. -/
structure ProjectRow where
  id : Nat
  name : String
  code : String
  created_at : String
deriving DecidableEq, Repr

/-- Row of the `shots` table. -/
structure ShotRow where
  id : Nat
  project_id : Nat
  code : String
  name : String
  created_at : String
deriving DecidableEq, Repr

/-- Row of the `assets` table (after migration 7, with the nullable
`project_id` and `shot_id` columns). -/
structure AssetRow where
  id : Nat
  name : String
  asset_type : String
  status : String
  created_at : String
  project_id : Option Nat
  shot_id : Option Nat
deriving DecidableEq, Repr

/-- Row of the `tasks` table. -/
structure TaskRow where
  id : Nat
  asset_id : Nat
  name : String
  status : String
  assignee : Option String
  due_date : Option String
  created_at : String
deriving DecidableEq, Repr

/-- Row of the `approvals` table. -/
structure ApprovalRow where
  id : Nat
  asset_id : Nat
  status : String
  note : Option String
  created_at : String
deriving DecidableEq, Repr

/-- Row of the `schedules` table. -/
structure ScheduleRow where
  id : Nat
  asset_id : Nat
  task : String
  due_date : String
  status : String
  created_at : String
deriving DecidableEq, Repr

/-- A table: its rows in insertion order plus the AUTOINCREMENT sequence. -/
structure Table (α : Type) where
  rows : List α
  seq : Nat
deriving DecidableEq, Repr

/-- Inserts a row built from the fresh id, returning the new id
(the cursor's `lastrowid`) and the updated table. -/
def Table.insert (t : Table α) (mk : Nat → α) : Nat × Table α :=
  (t.seq, { rows := t.rows ++ [mk t.seq], seq := t.seq + 1 })

/-- A `DELETE FROM tbl WHERE id = ?`: drops exactly the rows whose key
is `i`, leaving the sequence untouched. -/
def Table.deleteById (key : α → Nat) (t : Table α) (i : Nat) : Table α :=
  { t with rows := t.rows.filter (fun r => key r != i) }

/-- The whole datastore at the latest schema version. -/
structure DB where
  projects : Table ProjectRow
  shots : Table ShotRow
  assets : Table AssetRow
  tasks : Table TaskRow
  approvals : Table ApprovalRow
  schedules : Table ScheduleRow
deriving DecidableEq, Repr

/-- A freshly initialized datastore: every table empty, every sequence
starting at 1 (SQLite rowids start at 1). -/
def emptyDB : DB :=
  { projects := ⟨[], 1⟩, shots := ⟨[], 1⟩, assets := ⟨[], 1⟩,
    tasks := ⟨[], 1⟩, approvals := ⟨[], 1⟩, schedules := ⟨[], 1⟩ }

/-! ## Create operations (`storage.create_*`)

Each `create_*` receives its column values plus the creation timestamp
`now` (the source calls `datetime.utcnow().isoformat()`; here the caller
passes the string) and returns the fresh id with the updated datastore. -/

/-- `storage.create_project`. -/
def create_project (db : DB) (name code now : String) : Nat × DB :=
  let r := db.projects.insert (fun i => ⟨i, name, code, now⟩)
  (r.1, { db with projects := r.2 })

/-- `storage.create_shot`. -/
def create_shot (db : DB) (project_id : Nat) (code name now : String) : Nat × DB :=
  let r := db.shots.insert (fun i => ⟨i, project_id, code, name, now⟩)
  (r.1, { db with shots := r.2 })

/-- `storage.create_asset`. -/
def create_asset (db : DB) (name asset_type status : String)
    (project_id shot_id : Option Nat) (now : String) : Nat × DB :=
  let r := db.assets.insert (fun i => ⟨i, name, asset_type, status, now, project_id, shot_id⟩)
  (r.1, { db with assets := r.2 })

/-- `storage.create_task`. -/
def create_task (db : DB) (asset_id : Nat) (name status : String)
    (assignee due_date : Option String) (now : String) : Nat × DB :=
  let r := db.tasks.insert (fun i => ⟨i, asset_id, name, status, assignee, due_date, now⟩)
  (r.1, { db with tasks := r.2 })

/-- `storage.create_approval`. -/
def create_approval (db : DB) (asset_id : Nat) (status : String)
    (note : Option String) (now : String) : Nat × DB :=
  let r := db.approvals.insert (fun i => ⟨i, asset_id, status, note, now⟩)
  (r.1, { db with approvals := r.2 })

/-- `storage.create_schedule`. -/
def create_schedule (db : DB) (asset_id : Nat) (task due_date status now : String) : Nat × DB :=
  let r := db.schedules.insert (fun i => ⟨i, asset_id, task, due_date, status, now⟩)
  (r.1, { db with schedules := r.2 })

/-! ## List operations (`storage.list_*`)

`SELECT ... WHERE ... ORDER BY key` is embedded as a filter followed by a
stable sort on the ordering key (insertion sort). -/

/-- Inserts `x` into `l` in front of the first element it is `le`-below. -/
def insertBy (le : α → α → Bool) (x : α) : List α → List α
  | [] => [x]
  | y :: ys => if le x y then x :: y :: ys else y :: insertBy le x ys

/-- Insertion sort by the boolean relation `le`. -/
def sortBy (le : α → α → Bool) : List α → List α
  | [] => []
  | x :: xs => insertBy le x (sortBy le xs)

/-- The `ORDER BY id` key used by every list operation except schedules. -/
def idLe (key : α → Nat) (a b : α) : Bool :=
  decide (key a ≤ key b)

/-- The `ORDER BY due_date, id` key of `list_schedules`: lexicographic on
the due-date string, then on the id. -/
def schedLe (a b : ScheduleRow) : Bool :=
  decide (a.due_date < b.due_date) || (decide (a.due_date = b.due_date) && decide (a.id ≤ b.id))

/-- `storage.list_projects`: all rows, `ORDER BY id`. -/
def list_projects (db : DB) : List ProjectRow :=
  sortBy (idLe ProjectRow.id) db.projects.rows

/-- `storage.list_shots`: optional `project_id` filter, `ORDER BY id`. -/
def list_shots (db : DB) (project_id : Option Nat) : List ShotRow :=
  let rows :=
    match project_id with
    | none => db.shots.rows
    | some pid => db.shots.rows.filter (fun s => s.project_id == pid)
  sortBy (idLe ShotRow.id) rows

/-- Condition built by `storage.list_assets` from the optional filters
(the SQL `project_id = ?` / `shot_id = ?` conjuncts; a NULL column never
matches an equality against a concrete id). -/
def assetMatches (project_id shot_id : Option Nat) (a : AssetRow) : Bool :=
  (match project_id with
   | none => true
   | some pid => a.project_id == some pid) &&
  (match shot_id with
   | none => true
   | some sid => a.shot_id == some sid)

/-- `storage.list_assets`: optional `project_id` and `shot_id` filters,
`ORDER BY id`. -/
def list_assets (db : DB) (project_id shot_id : Option Nat) : List AssetRow :=
  sortBy (idLe AssetRow.id) (db.assets.rows.filter (assetMatches project_id shot_id))

/-- `storage.list_tasks`: optional `asset_id` filter, `ORDER BY id`. -/
def list_tasks (db : DB) (asset_id : Option Nat) : List TaskRow :=
  let rows :=
    match asset_id with
    | none => db.tasks.rows
    | some aid => db.tasks.rows.filter (fun t => t.asset_id == aid)
  sortBy (idLe TaskRow.id) rows

/-- `storage.list_approvals`: optional `asset_id` filter, `ORDER BY id`. -/
def list_approvals (db : DB) (asset_id : Option Nat) : List ApprovalRow :=
  let rows :=
    match asset_id with
    | none => db.approvals.rows
    | some aid => db.approvals.rows.filter (fun a => a.asset_id == aid)
  sortBy (idLe ApprovalRow.id) rows

/-- `storage.list_schedules`: optional `asset_id` filter,
`ORDER BY due_date, id`. -/
def list_schedules (db : DB) (asset_id : Option Nat) : List ScheduleRow :=
  let rows :=
    match asset_id with
    | none => db.schedules.rows
    | some aid => db.schedules.rows.filter (fun s => s.asset_id == aid)
  sortBy schedLe rows

/-! ## Reporting aggregator (`storage.report_summary`) -/

/-- The per-table totals of the summary. -/
structure Counts where
  projects : Nat
  shots : Nat
  assets : Nat
  tasks : Nat
  approvals : Nat
  schedules : Nat
deriving DecidableEq, Repr

/-- `storage._count_by_status`: the group-by-status histogram, read as a
count function (a status absent from the grouped result has count 0). -/
def _count_by_status (statuses : List String) : String → Nat :=
  fun s => (statuses.filter (fun x => x == s)).length

/-- Result of `storage.report_summary`. -/
structure Summary where
  counts : Counts
  asset_status : String → Nat
  task_status : String → Nat

/-- `storage.report_summary`: `SELECT COUNT(*)` per table plus the two
status histograms; a pure read of the datastore. -/
def report_summary (db : DB) : Summary :=
  { counts :=
      { projects := db.projects.rows.length
        shots := db.shots.rows.length
        assets := db.assets.rows.length
        tasks := db.tasks.rows.length
        approvals := db.approvals.rows.length
        schedules := db.schedules.rows.length }
    asset_status := _count_by_status (db.assets.rows.map AssetRow.status)
    task_status := _count_by_status (db.tasks.rows.map TaskRow.status) }

/-! ## Existence probes (`storage._id_exists` and friends) -/

/-- `storage._id_exists`: `SELECT 1 FROM tbl WHERE id = ? LIMIT 1`. -/
def _id_exists (key : α → Nat) (t : Table α) (entity_id : Nat) : Bool :=
  t.rows.any (fun r => key r == entity_id)

/-- `storage.project_exists`. -/
def project_exists (db : DB) (project_id : Nat) : Bool :=
  _id_exists ProjectRow.id db.projects project_id

/-- `storage.shot_exists`. -/
def shot_exists (db : DB) (shot_id : Nat) : Bool :=
  _id_exists ShotRow.id db.shots shot_id

/-- `storage.asset_exists`. -/
def asset_exists (db : DB) (asset_id : Nat) : Bool :=
  _id_exists AssetRow.id db.assets asset_id

/-- Modelled from the spec: `task_exists` is part of the per-kind
`exists` surface of §4.2/§6 but its definition is not in the provided
storage module; it is the `tasks`-table instance of the same
`SELECT 1 ... WHERE id = ?` probe. -/
def task_exists (db : DB) (task_id : Nat) : Bool :=
  _id_exists TaskRow.id db.tasks task_id

/-- Modelled from the spec: `approval_exists` is imported by the approval
CLI but its definition is not in the provided storage module; it is the
`approvals`-table instance of the same probe. -/
def approval_exists (db : DB) (approval_id : Nat) : Bool :=
  _id_exists ApprovalRow.id db.approvals approval_id

/-- Modelled from the spec: `schedule_exists` is imported by the schedule
CLI but its definition is not in the provided storage module; it is the
`schedules`-table instance of the same probe. -/
def schedule_exists (db : DB) (schedule_id : Nat) : Bool :=
  _id_exists ScheduleRow.id db.schedules schedule_id

/-! ## Update operations

The `update_*` functions are imported by the CLI modules
(`project_cli.py`, `shot_cli.py`, `approval_cli.py`, `schedule_cli.py`)
but their definitions are not in the provided storage module, so they are
modelled from the spec (§4.2): a partial update applies only the fields
explicitly supplied (`none` = not supplied), returns `false` when none
were supplied, and `true` after committing otherwise. The option
arguments follow the corresponding CLI update commands' field sets. -/

/-- Modelled from the spec: `update_project` (fields `name`, `code`),
absent from the provided storage module. -/
def update_project (db : DB) (project_id : Nat)
    (name code : Option String) : Bool × DB :=
  if name.isNone && code.isNone then
    (false, db)
  else
    let upd := fun (p : ProjectRow) =>
      if p.id == project_id then
        { p with name := name.getD p.name, code := code.getD p.code }
      else p
    (true, { db with projects := { db.projects with rows := db.projects.rows.map upd } })

/-- Modelled from the spec: `update_shot` (fields `project_id`, `code`,
`name`), absent from the provided storage module. -/
def update_shot (db : DB) (shot_id : Nat)
    (project_id : Option Nat) (code name : Option String) : Bool × DB :=
  if project_id.isNone && (code.isNone && name.isNone) then
    (false, db)
  else
    let upd := fun (s : ShotRow) =>
      if s.id == shot_id then
        { s with project_id := project_id.getD s.project_id,
                 code := code.getD s.code, name := name.getD s.name }
      else s
    (true, { db with shots := { db.shots with rows := db.shots.rows.map upd } })

/-- Modelled from the spec: `update_asset` (fields `name`, `asset_type`,
`status`, `project_id`, `shot_id`), part of the per-kind update surface of
§4.2/§6 but absent from the provided storage module. -/
def update_asset (db : DB) (asset_id : Nat)
    (name asset_type status : Option String)
    (project_id shot_id : Option Nat) : Bool × DB :=
  if name.isNone && (asset_type.isNone && (status.isNone && (project_id.isNone && shot_id.isNone))) then
    (false, db)
  else
    let upd := fun (a : AssetRow) =>
      if a.id == asset_id then
        { a with name := name.getD a.name, asset_type := asset_type.getD a.asset_type,
                 status := status.getD a.status,
                 project_id := match project_id with | some p => some p | none => a.project_id,
                 shot_id := match shot_id with | some s => some s | none => a.shot_id }
      else a
    (true, { db with assets := { db.assets with rows := db.assets.rows.map upd } })

/-- Modelled from the spec: `update_task` (fields `name`, `status`,
`assignee`, `due_date`), part of the per-kind update surface of §4.2/§6
but absent from the provided storage module. -/
def update_task (db : DB) (task_id : Nat)
    (name status assignee due_date : Option String) : Bool × DB :=
  if name.isNone && (status.isNone && (assignee.isNone && due_date.isNone)) then
    (false, db)
  else
    let upd := fun (t : TaskRow) =>
      if t.id == task_id then
        { t with name := name.getD t.name, status := status.getD t.status,
                 assignee := match assignee with | some a => some a | none => t.assignee,
                 due_date := match due_date with | some d => some d | none => t.due_date }
      else t
    (true, { db with tasks := { db.tasks with rows := db.tasks.rows.map upd } })

/-- Modelled from the spec: `update_approval` (fields `asset_id`,
`status`, `note`), absent from the provided storage module. -/
def update_approval (db : DB) (approval_id : Nat)
    (asset_id : Option Nat) (status note : Option String) : Bool × DB :=
  if asset_id.isNone && (status.isNone && note.isNone) then
    (false, db)
  else
    let upd := fun (a : ApprovalRow) =>
      if a.id == approval_id then
        { a with asset_id := asset_id.getD a.asset_id, status := status.getD a.status,
                 note := match note with | some n => some n | none => a.note }
      else a
    (true, { db with approvals := { db.approvals with rows := db.approvals.rows.map upd } })

/-- Modelled from the spec: `update_schedule` (fields `asset_id`, `task`,
`due_date`, `status`), absent from the provided storage module. -/
def update_schedule (db : DB) (schedule_id : Nat)
    (asset_id : Option Nat) (task due_date status : Option String) : Bool × DB :=
  if asset_id.isNone && (task.isNone && (due_date.isNone && status.isNone)) then
    (false, db)
  else
    let upd := fun (s : ScheduleRow) =>
      if s.id == schedule_id then
        { s with asset_id := asset_id.getD s.asset_id, task := task.getD s.task,
                 due_date := due_date.getD s.due_date, status := status.getD s.status }
      else s
    (true, { db with schedules := { db.schedules with rows := db.schedules.rows.map upd } })

/-! ## Single-entity delete operations

The `delete_*` functions are imported by the CLI modules but their
definitions are not in the provided storage module; modelled from the
spec (§4.2/§4.3): `delete(id)` removes exactly the one row with that id
and never cascades. -/

/-- Modelled from the spec: `delete_project`, absent from the provided
storage module; a narrow `DELETE FROM projects WHERE id = ?`. -/
def delete_project (db : DB) (project_id : Nat) : DB :=
  { db with projects := db.projects.deleteById ProjectRow.id project_id }

/-- Modelled from the spec: `delete_shot`, absent from the provided
storage module; a narrow `DELETE FROM shots WHERE id = ?`. -/
def delete_shot (db : DB) (shot_id : Nat) : DB :=
  { db with shots := db.shots.deleteById ShotRow.id shot_id }

/-- Modelled from the spec: `delete_asset` (§4.3 single-entity delete of
one Asset, leaving its dependents orphaned), part of the per-kind delete
surface of §6 but absent from the provided storage module. -/
def delete_asset (db : DB) (asset_id : Nat) : DB :=
  { db with assets := db.assets.deleteById AssetRow.id asset_id }

/-- Modelled from the spec: `delete_task`, part of the per-kind delete
surface of §6 but absent from the provided storage module. -/
def delete_task (db : DB) (task_id : Nat) : DB :=
  { db with tasks := db.tasks.deleteById TaskRow.id task_id }

/-- Modelled from the spec: `delete_approval`, absent from the provided
storage module; a narrow `DELETE FROM approvals WHERE id = ?`. -/
def delete_approval (db : DB) (approval_id : Nat) : DB :=
  { db with approvals := db.approvals.deleteById ApprovalRow.id approval_id }

/-- Modelled from the spec: `delete_schedule`, absent from the provided
storage module; a narrow `DELETE FROM schedules WHERE id = ?`. -/
def delete_schedule (db : DB) (schedule_id : Nat) : DB :=
  { db with schedules := db.schedules.deleteById ScheduleRow.id schedule_id }

/-! ## Cascade coordinator (purge)

The `project purge` command exists in the repository's tests but its
implementation is not in the provided sources; modelled from the spec
(§4.3): for a targeted Project, delete in dependency order the Schedules,
Approvals and Tasks of every Asset under the Project (directly via
`project_id` or via one of its Shots), then those Assets, then the
Shots, then the Project row itself. -/

/-- The ids of the Shots belonging to project `pid`. -/
def shotIdsOf (db : DB) (pid : Nat) : List Nat :=
  (db.shots.rows.filter (fun s => s.project_id == pid)).map ShotRow.id

/-- Whether an Asset is under project `pid`: directly via its
`project_id`, or via one of `pid`'s Shots. -/
def assetUnder (db : DB) (pid : Nat) (a : AssetRow) : Bool :=
  a.project_id == some pid ||
    (match a.shot_id with
     | some sid => (shotIdsOf db pid).contains sid
     | none => false)

/-- The ids of the Assets under project `pid`. -/
def assetIdsUnder (db : DB) (pid : Nat) : List Nat :=
  (db.assets.rows.filter (assetUnder db pid)).map AssetRow.id

/-- One row deletion performed by the purge, tagged by table. -/
inductive DelEvent where
  | schedule (id : Nat)
  | approval (id : Nat)
  | task (id : Nat)
  | asset (id : Nat)
  | shot (id : Nat)
  | project (id : Nat)
deriving DecidableEq, Repr

/-- Position of an event's table in the purge's dependency order:
Schedules, then Approvals, then Tasks, then Assets, then Shots, then the
Project row. -/
def DelEvent.phase : DelEvent → Nat
  | .schedule _ => 0
  | .approval _ => 1
  | .task _ => 2
  | .asset _ => 3
  | .shot _ => 4
  | .project _ => 5

/-- Modelled from the spec: `purge(P)` of §4.3, whose implementation is
absent from the provided sources. Returns the datastore after the purge
together with the ordered trace of row deletions it issues. -/
def purge_project (db : DB) (pid : Nat) : DB × List DelEvent :=
  let aids := assetIdsUnder db pid
  let sids := shotIdsOf db pid
  let delSch := db.schedules.rows.filter (fun r => aids.contains r.asset_id)
  let delApp := db.approvals.rows.filter (fun r => aids.contains r.asset_id)
  let delTsk := db.tasks.rows.filter (fun r => aids.contains r.asset_id)
  let db' : DB :=
    { projects := { db.projects with rows := db.projects.rows.filter (fun p => p.id != pid) }
      shots := { db.shots with rows := db.shots.rows.filter (fun s => s.project_id != pid) }
      assets := { db.assets with rows := db.assets.rows.filter (fun a => !assetUnder db pid a) }
      tasks := { db.tasks with rows := db.tasks.rows.filter (fun r => !aids.contains r.asset_id) }
      approvals := { db.approvals with rows := db.approvals.rows.filter (fun r => !aids.contains r.asset_id) }
      schedules := { db.schedules with rows := db.schedules.rows.filter (fun r => !aids.contains r.asset_id) } }
  (db',
    delSch.map (fun r => DelEvent.schedule r.id) ++
    delApp.map (fun r => DelEvent.approval r.id) ++
    delTsk.map (fun r => DelEvent.task r.id) ++
    aids.map DelEvent.asset ++
    sids.map DelEvent.shot ++
    [DelEvent.project pid])

/-! ## Operation traces

A client session against the storage API, restricted to the create and
delete operations (the shape quantified over by the spec's testable
properties). -/

/-- The six entity kinds. -/
inductive Kind where
  | project
  | shot
  | asset
  | task
  | approval
  | schedule
deriving DecidableEq, Repr

/-- One storage call in a session: a `create_*` (with its column
arguments) or a single-entity `delete_*` (with its target id). -/
inductive Op where
  | addProject (name code now : String)
  | addShot (project_id : Nat) (code name now : String)
  | addAsset (name asset_type status : String) (project_id shot_id : Option Nat) (now : String)
  | addTask (asset_id : Nat) (name status : String) (assignee due_date : Option String) (now : String)
  | addApproval (asset_id : Nat) (status : String) (note : Option String) (now : String)
  | addSchedule (asset_id : Nat) (task due_date status now : String)
  | delProject (id : Nat)
  | delShot (id : Nat)
  | delAsset (id : Nat)
  | delTask (id : Nat)
  | delApproval (id : Nat)
  | delSchedule (id : Nat)
deriving DecidableEq, Repr

/-- The state transition of one storage call. -/
def applyOp (db : DB) : Op → DB
  | .addProject n c now => (create_project db n c now).2
  | .addShot p c n now => (create_shot db p c n now).2
  | .addAsset n ty st p s now => (create_asset db n ty st p s now).2
  | .addTask a n st asg due now => (create_task db a n st asg due now).2
  | .addApproval a st note now => (create_approval db a st note now).2
  | .addSchedule a t due st now => (create_schedule db a t due st now).2
  | .delProject i => delete_project db i
  | .delShot i => delete_shot db i
  | .delAsset i => delete_asset db i
  | .delTask i => delete_task db i
  | .delApproval i => delete_approval db i
  | .delSchedule i => delete_schedule db i

/-- The id a call returns when it is a `create_*`, tagged with its kind;
`none` for deletes. -/
def opNewId (db : DB) : Op → Option (Kind × Nat)
  | .addProject _ _ _ => some (.project, db.projects.seq)
  | .addShot _ _ _ _ => some (.shot, db.shots.seq)
  | .addAsset _ _ _ _ _ _ => some (.asset, db.assets.seq)
  | .addTask _ _ _ _ _ _ => some (.task, db.tasks.seq)
  | .addApproval _ _ _ _ => some (.approval, db.approvals.seq)
  | .addSchedule _ _ _ _ _ => some (.schedule, db.schedules.seq)
  | _ => none

/-- Runs a session left to right. -/
def runOps (db : DB) : List Op → DB
  | [] => db
  | op :: ops => runOps (applyOp db op) ops

/-- The ids handed out by the `create_*` calls of kind `k` during a
session starting at `db`. -/
def createdIds (k : Kind) (db : DB) : List Op → List Nat
  | [] => []
  | op :: ops =>
    (match opNewId db op with
     | some p => if p.1 == k then [p.2] else []
     | none => []) ++ createdIds k (applyOp db op) ops

/-- The existence probe of kind `k`. -/
def kindExists (k : Kind) (db : DB) (i : Nat) : Bool :=
  match k with
  | .project => project_exists db i
  | .shot => shot_exists db i
  | .asset => asset_exists db i
  | .task => task_exists db i
  | .approval => approval_exists db i
  | .schedule => schedule_exists db i

/-- The AUTOINCREMENT sequence of kind `k`'s table. -/
def seqOf (k : Kind) (db : DB) : Nat :=
  match k with
  | .project => db.projects.seq
  | .shot => db.shots.seq
  | .asset => db.assets.seq
  | .task => db.tasks.seq
  | .approval => db.approvals.seq
  | .schedule => db.schedules.seq

/-- The single-entity delete of kind `k`. -/
def delOpOf (k : Kind) (i : Nat) : Op :=
  match k with
  | .project => .delProject i
  | .shot => .delShot i
  | .asset => .delAsset i
  | .task => .delTask i
  | .approval => .delApproval i
  | .schedule => .delSchedule i

/-- Well-formedness of one table: every row id is below the sequence
(every id was handed out by the AUTOINCREMENT mechanism). -/
def TableWF (key : α → Nat) (t : Table α) : Prop :=
  ∀ r ∈ t.rows, key r < t.seq

instance (key : α → Nat) (t : Table α) : Decidable (TableWF key t) :=
  List.decidableBAll _ t.rows

/-- Well-formedness of the datastore: every table is well-formed. -/
def DBWF (db : DB) : Prop :=
  TableWF ProjectRow.id db.projects ∧ TableWF ShotRow.id db.shots ∧
  TableWF AssetRow.id db.assets ∧ TableWF TaskRow.id db.tasks ∧
  TableWF ApprovalRow.id db.approvals ∧ TableWF ScheduleRow.id db.schedules

instance (db : DB) : Decidable (DBWF db) := by
  unfold DBWF
  infer_instance

/-! ## General lemmas about the insertion sort -/

theorem length_insertBy (le : α → α → Bool) (x : α) (l : List α) :
    (insertBy le x l).length = l.length + 1 := by
  induction l with
  | nil => rfl
  | cons y ys ih =>
    rw [insertBy]
    split
    · simp
    · simp [ih]

theorem length_sortBy (le : α → α → Bool) (l : List α) :
    (sortBy le l).length = l.length := by
  induction l with
  | nil => rfl
  | cons x xs ih =>
    rw [sortBy, length_insertBy, ih]
    rfl

theorem mem_insertBy (le : α → α → Bool) (x a : α) (l : List α) :
    a ∈ insertBy le x l ↔ a = x ∨ a ∈ l := by
  induction l with
  | nil => simp [insertBy]
  | cons y ys ih =>
    rw [insertBy]
    split
    · simp [List.mem_cons]
    · simp only [List.mem_cons, ih]
      tauto

theorem pairwise_insertBy (le : α → α → Bool)
    (total : ∀ a b, le a b = true ∨ le b a = true)
    (htrans : ∀ a b c, le a b = true → le b c = true → le a c = true)
    (x : α) (l : List α) (h : l.Pairwise (fun a b => le a b = true)) :
    (insertBy le x l).Pairwise (fun a b => le a b = true) := by
  induction l with
  | nil => simp [insertBy]
  | cons y ys ih =>
    rw [List.pairwise_cons] at h
    obtain ⟨hy, hys⟩ := h
    rw [insertBy]
    split
    · rename_i hxy
      refine List.Pairwise.cons ?_ (List.Pairwise.cons hy hys)
      intro z hz
      rcases List.mem_cons.mp hz with rfl | hz
      · exact hxy
      · exact htrans _ _ _ hxy (hy z hz)
    · rename_i hxy
      have hyx : le y x = true := by
        rcases total x y with h1 | h1
        · exact absurd h1 hxy
        · exact h1
      refine List.Pairwise.cons ?_ (ih hys)
      intro z hz
      rcases (mem_insertBy le x z ys).mp hz with rfl | hz
      · exact hyx
      · exact hy z hz

theorem pairwise_sortBy (le : α → α → Bool)
    (total : ∀ a b, le a b = true ∨ le b a = true)
    (htrans : ∀ a b c, le a b = true → le b c = true → le a c = true)
    (l : List α) :
    (sortBy le l).Pairwise (fun a b => le a b = true) := by
  induction l with
  | nil => exact List.Pairwise.nil
  | cons x xs ih => exact pairwise_insertBy le total htrans x (sortBy le xs) ih

theorem idLe_total (key : α → Nat) (a b : α) :
    idLe key a b = true ∨ idLe key b a = true := by
  simp only [idLe, decide_eq_true_eq]
  exact Nat.le_total _ _

theorem idLe_trans (key : α → Nat) (a b c : α)
    (h1 : idLe key a b = true) (h2 : idLe key b c = true) : idLe key a c = true := by
  simp only [idLe, decide_eq_true_eq] at *
  omega

theorem schedLe_total (a b : ScheduleRow) :
    schedLe a b = true ∨ schedLe b a = true := by
  simp only [schedLe, Bool.or_eq_true, Bool.and_eq_true, decide_eq_true_eq]
  rcases lt_trichotomy a.due_date b.due_date with h | h | h
  · exact Or.inl (Or.inl h)
  · rcases Nat.le_total a.id b.id with h2 | h2
    · exact Or.inl (Or.inr ⟨h, h2⟩)
    · exact Or.inr (Or.inr ⟨h.symm, h2⟩)
  · exact Or.inr (Or.inl h)

theorem schedLe_trans (a b c : ScheduleRow)
    (h1 : schedLe a b = true) (h2 : schedLe b c = true) : schedLe a c = true := by
  simp only [schedLe, Bool.or_eq_true, Bool.and_eq_true, decide_eq_true_eq] at *
  rcases h1 with h1 | ⟨h1e, h1i⟩
  · rcases h2 with h2 | ⟨h2e, h2i⟩
    · exact Or.inl (h1.trans h2)
    · exact Or.inl (h2e ▸ h1)
  · rcases h2 with h2 | ⟨h2e, h2i⟩
    · exact Or.inl (h1e ▸ h2)
    · exact Or.inr ⟨h1e.trans h2e, Nat.le_trans h1i h2i⟩

theorem sorted_by_id (key : α → Nat) (l : List α) :
    (sortBy (idLe key) l).Pairwise (fun a b => key a ≤ key b) := by
  have h := pairwise_sortBy (idLe key) (idLe_total key) (idLe_trans key) l
  exact h.imp (fun hab => by simpa [idLe] using hab)

/-! ## Claim theorems: migration runner -/

/-- C2. Once the recorded schema version is the latest registered version,
a further `init` run applies 0 scripts, whatever operational errors the
engine would raise, and returns the bookkeeping state (hence the recorded
maximum version) unchanged. -/
theorem init_idempotent_when_current (fails : Nat → Bool) (st : MigState)
    (h : _current_version st = LATEST_VERSION) :
    _apply_migrations fails st = .ok 0 st := by
  have h8 : _current_version st = 8 := by
    simpa [LATEST_VERSION, MIGRATIONS] using h
  simp [_apply_migrations, h8, MIGRATIONS, applyLoop]

theorem init_idempotent_when_current_witness :
    _current_version [1, 2, 3, 4, 5, 6, 7, 8] = LATEST_VERSION ∧
    _apply_migrations (fun _ => false) [1, 2, 3, 4, 5, 6, 7, 8] =
      .ok 0 [1, 2, 3, 4, 5, 6, 7, 8] :=
  ⟨by decide, init_idempotent_when_current (fun _ => false) [1, 2, 3, 4, 5, 6, 7, 8] (by decide)⟩

/-- C3. When the engine raises an operational error at the pending script
of version `v` (and at no other pending script), the run swallows the
error exactly when `v` is the assets column-addition script (version 7):
for `v = 7` the run still returns an applied count, while for any other
`v` the error propagates with the bookkeeping table left at the last
successfully executed script's version, `v - 1`. -/
theorem migration_error_suppressed_iff_column_addition :
    ∀ v script, (v, script) ∈ MIGRATIONS → ∀ c : Nat, c < v →
      (v = 7 →
        _apply_migrations (fun u => u == v) (List.range' 1 c) =
          .ok (8 - c) (List.range' 1 6 ++ [8])) ∧
      (v ≠ 7 →
        _apply_migrations (fun u => u == v) (List.range' 1 c) = .err (List.range' 1 (v - 1)) ∧
        _current_version (List.range' 1 (v - 1)) = v - 1) := by
  intro v script hmem
  fin_cases hmem <;> decide

theorem migration_error_suppressed_iff_column_addition_witness :
    (_apply_migrations (fun u => u == 3) (List.range' 1 2) = .err (List.range' 1 2) ∧
      _current_version (List.range' 1 2) = 2) ∧
    _apply_migrations (fun u => u == 7) (List.range' 1 6) =
      .ok 2 (List.range' 1 6 ++ [8]) :=
  ⟨(migration_error_suppressed_iff_column_addition 3 script3 (by decide) 2
      (by decide)).2 (by decide),
   (migration_error_suppressed_iff_column_addition 7 script7 (by decide) 6
      (by decide)).1 rfl⟩

/-- C10. When the tolerated operational error hits pending script 7 (the
assets column-addition script), the run still counts it: starting from
recorded version `c < 7` the run returns applied count `8 - c`, yet no
version row 7 is inserted, so the count of version rows actually added,
`7 - c`, is strictly below the returned applied count. -/
theorem tolerated_failure_still_counted :
    ∀ c : Nat, c < 7 →
      _apply_migrations (fun u => u == 7) (List.range' 1 c) =
        .ok (8 - c) (List.range' 1 6 ++ [8]) ∧
      7 ∉ (List.range' 1 6 ++ [8]) ∧
      (List.range' 1 6 ++ [8]).length = (List.range' 1 c).length + (7 - c) ∧
      7 - c < 8 - c := by
  decide

theorem tolerated_failure_still_counted_witness :
    _apply_migrations (fun u => u == 7) (List.range' 1 0) =
      .ok 8 (List.range' 1 6 ++ [8]) ∧
    7 ∉ (List.range' 1 6 ++ [8]) ∧
    (List.range' 1 6 ++ [8]).length = (List.range' 1 0).length + 7 ∧
    7 < 8 :=
  tolerated_failure_still_counted 0 (by decide)

/-! ## Claim theorems: path resolution -/

/-- C8 (counterexample). The claim "the environment variable wins over an
explicitly passed path argument" is false: with the environment override
set to `/env/db` and the explicit argument `/arg/db`, resolution returns
the argument, not the environment value. -/
theorem resolve_path_env_precedence_counterexample :
    resolve_db_path (some "/env/db") (some "/arg/db") = "/arg/db" ∧
    resolve_db_path (some "/env/db") (some "/arg/db") ≠ "/env/db" := by
  constructor
  · rfl
  · decide

/-- C8 (amended). An explicitly passed path argument takes precedence
over the environment variable; the environment variable (when set and
non-empty) takes precedence over the default user-scoped location, and
with neither present the default location is used. -/
theorem resolve_path_argument_precedence (env : Option String) (p : String) :
    resolve_db_path env (some p) = p ∧
    (∀ e : String, e ≠ "" → resolve_db_path (some e) none = e) ∧
    resolve_db_path none none = DEFAULT_DB_DIR ++ "/" ++ DEFAULT_DB_NAME := by
  refine ⟨rfl, ?_, rfl⟩
  intro e he
  simp [resolve_db_path, default_db_path, he]

/-! ## Claim theorems: list ordering and reporting -/

/-- C9. Every list operation returns rows sorted by id ascending, except
`list_schedules`, whose rows are sorted by due date first and id second;
this holds for every choice of the optional parent-id filters. -/
theorem list_operations_ordered (db : DB) (pid sid aid : Option Nat) :
    (list_projects db).Pairwise (fun a b => a.id ≤ b.id) ∧
    (list_shots db pid).Pairwise (fun a b => a.id ≤ b.id) ∧
    (list_assets db pid sid).Pairwise (fun a b => a.id ≤ b.id) ∧
    (list_tasks db aid).Pairwise (fun a b => a.id ≤ b.id) ∧
    (list_approvals db aid).Pairwise (fun a b => a.id ≤ b.id) ∧
    (list_schedules db aid).Pairwise
      (fun a b => a.due_date < b.due_date ∨ (a.due_date = b.due_date ∧ a.id ≤ b.id)) := by
  refine ⟨sorted_by_id _ _, sorted_by_id _ _, sorted_by_id _ _, sorted_by_id _ _,
    sorted_by_id _ _, ?_⟩
  have h := pairwise_sortBy schedLe schedLe_total schedLe_trans
    (match aid with
     | none => db.schedules.rows
     | some a => db.schedules.rows.filter (fun s => s.asset_id == a))
  refine List.Pairwise.imp ?_ h
  intro a b hab
  simpa [schedLe] using hab

theorem summary_assets_eq (db : DB) :
    (report_summary db).counts.assets = (list_assets db none none).length := by
  have hfilter : db.assets.rows.filter (assetMatches none none) = db.assets.rows := by
    apply List.filter_eq_self.mpr
    intro a _
    rfl
  rw [list_assets, hfilter, length_sortBy]
  rfl

/-- C7. After any session of create and delete calls starting from a
fresh datastore, the asset total of the reporting summary equals the
number of rows returned by listing assets with no filters (the summary
itself is a pure read: it returns data and no datastore). -/
theorem summary_asset_count_matches_list (ops : List Op) :
    (report_summary (runOps emptyDB ops)).counts.assets =
      (list_assets (runOps emptyDB ops) none none).length :=
  summary_assets_eq (runOps emptyDB ops)

/-! ## Claim theorems: the existence gate (C6 machinery) -/


theorem exists_false_of_step (db : DB) (op : Op) (k : Kind) (i : Nat)
    (h : kindExists k db i = false)
    (hnew : ∀ p, opNewId db op = some p → p.1 = k → p.2 ≠ i) :
    kindExists k (applyOp db op) i = false := by
  cases k <;> cases op <;>
    simp_all [kindExists, applyOp, opNewId, project_exists, shot_exists, asset_exists,
      task_exists, approval_exists, schedule_exists, _id_exists,
      create_project, create_shot, create_asset, create_task, create_approval, create_schedule,
      delete_project, delete_shot, delete_asset, delete_task, delete_approval, delete_schedule,
      Table.insert, Table.deleteById, List.any_eq_true, List.mem_filter, List.mem_append]

theorem seqOf_mono (db : DB) (op : Op) (k : Kind) :
    seqOf k db ≤ seqOf k (applyOp db op) := by
  cases k <;> cases op <;>
    simp [seqOf, applyOp,
      create_project, create_shot, create_asset, create_task, create_approval, create_schedule,
      delete_project, delete_shot, delete_asset, delete_task, delete_approval, delete_schedule,
      Table.insert, Table.deleteById]

theorem opNewId_eq_seq (db : DB) (op : Op) (p : Kind × Nat)
    (h : opNewId db op = some p) : p.2 = seqOf p.1 db := by
  cases op <;> first
    | (cases h; rfl)
    | simp [opNewId] at h

theorem exists_lt_seq (k : Kind) (db : DB) (i : Nat) (hwf : DBWF db)
    (h : kindExists k db i = true) : i < seqOf k db := by
  obtain ⟨w1, w2, w3, w4, w5, w6⟩ := hwf
  cases k <;>
    simp only [kindExists, seqOf, project_exists, shot_exists, asset_exists, task_exists,
      approval_exists, schedule_exists, _id_exists, List.any_eq_true, beq_iff_eq] at h ⊢ <;>
    obtain ⟨r, hr, rfl⟩ := h
  · exact w1 r hr
  · exact w2 r hr
  · exact w3 r hr
  · exact w4 r hr
  · exact w5 r hr
  · exact w6 r hr

theorem delete_kills (k : Kind) (db : DB) (i : Nat) :
    kindExists k (applyOp db (delOpOf k i)) i = false ∧
    seqOf k (applyOp db (delOpOf k i)) = seqOf k db := by
  cases k <;>
    simp [kindExists, delOpOf, applyOp, seqOf,
      project_exists, shot_exists, asset_exists, task_exists, approval_exists, schedule_exists,
      delete_project, delete_shot, delete_asset, delete_task, delete_approval, delete_schedule,
      _id_exists, Table.deleteById, List.any_eq_true, List.mem_filter]

theorem create_gives_exists (db : DB) (op : Op) (p : Kind × Nat)
    (h : opNewId db op = some p) :
    kindExists p.1 (applyOp db op) p.2 = true := by
  cases op <;> first
    | (cases h
       simp [kindExists, applyOp,
         project_exists, shot_exists, asset_exists, task_exists, approval_exists,
         schedule_exists,
         create_project, create_shot, create_asset, create_task, create_approval,
         create_schedule,
         _id_exists, Table.insert, List.any_eq_true, List.mem_append])
    | simp [opNewId] at h

theorem not_exists_run (k : Kind) (i : Nat) :
    ∀ (ops : List Op) (db : DB), kindExists k db i = false → i ∉ createdIds k db ops →
      kindExists k (runOps db ops) i = false := by
  intro ops
  induction ops with
  | nil =>
    intro db h _
    exact h
  | cons op rest ih =>
    intro db h hnc
    rw [runOps]
    apply ih
    · apply exists_false_of_step db op k i h
      intro p hp hk hi
      apply hnc
      rw [createdIds, hp]
      apply List.mem_append.mpr
      left
      simp [hk, hi]
    · intro hmem
      apply hnc
      rw [createdIds]
      exact List.mem_append.mpr (Or.inr hmem)

theorem deleted_stays_gone (k : Kind) (i : Nat) :
    ∀ (ops : List Op) (db : DB), i < seqOf k db → kindExists k db i = false →
      kindExists k (runOps db ops) i = false := by
  intro ops
  induction ops with
  | nil =>
    intro db _ h
    exact h
  | cons op rest ih =>
    intro db hlt h
    rw [runOps]
    apply ih
    · exact Nat.lt_of_lt_of_le hlt (seqOf_mono db op k)
    · apply exists_false_of_step db op k i h
      intro p hp hk
      have h2 := opNewId_eq_seq db op p hp
      rw [hk] at h2
      omega



/-- C6. For every entity kind, the existence probe returns false for an
id that no create of that kind handed out during a session (when it did
not exist beforehand) and for an id whose row has been deleted (for the
rest of the session: AUTOINCREMENT never re-issues it), and returns true
for the id a create returns, immediately after that create. -/
theorem existence_probe_tracks_creates_and_deletes (k : Kind) (db : DB) (i : Nat) :
    (∀ ops : List Op, kindExists k db i = false → i ∉ createdIds k db ops →
        kindExists k (runOps db ops) i = false) ∧
    (∀ ops : List Op, DBWF db → kindExists k db i = true →
        kindExists k (runOps (applyOp db (delOpOf k i)) ops) i = false) ∧
    (∀ op : Op, opNewId db op = some (k, i) → kindExists k (applyOp db op) i = true) := by
  refine ⟨fun ops h hnc => not_exists_run k i ops db h hnc, ?_, ?_⟩
  · intro ops hwf hex
    have hlt : i < seqOf k db := exists_lt_seq k db i hwf hex
    obtain ⟨hdead, hseq⟩ := delete_kills k db i
    apply deleted_stays_gone k i ops
    · rw [hseq]
      exact hlt
    · exact hdead
  · intro op hop
    have h2 := create_gives_exists db op (k, i) hop
    simpa using h2



/-! ## Claim theorems: updates, single deletes and the purge cascade -/


theorem updateRows_keep (key : α → Nat) (g : α → α) (i : Nat) (rows : List α)
    (r : α) (hr : r ∈ rows) (hne : key r ≠ i) :
    r ∈ rows.map (fun x => if key x == i then g x else x) := by
  have he : (if key r == i then g r else r) = r := by simp [hne]
  exact he ▸ List.mem_map_of_mem _ hr

theorem updateRows_hit (key : α → Nat) (g : α → α) (i : Nat) (rows : List α)
    (r : α) (hr : r ∈ rows) (he : key r = i) :
    g r ∈ rows.map (fun x => if key x == i then g x else x) := by
  have hg : (if key r == i then g r else r) = g r := by simp [he]
  exact hg ▸ List.mem_map_of_mem _ hr

theorem deleteById_spec (key : α → Nat) (t : Table α) (i : Nat) :
    _id_exists key (t.deleteById key i) i = false ∧
    (∀ r ∈ t.rows, key r ≠ i → r ∈ (t.deleteById key i).rows) ∧
    (∀ r ∈ (t.deleteById key i).rows, r ∈ t.rows ∧ key r ≠ i) ∧
    (t.deleteById key i).seq = t.seq := by
  refine ⟨?_, ?_, ?_, rfl⟩
  · simp [Table.deleteById, _id_exists, List.any_eq_true, List.mem_filter]
  · intro r hr hne
    simp only [Table.deleteById, List.mem_filter]
    exact ⟨hr, by simp [hne]⟩
  · intro r hr
    simp only [Table.deleteById, List.mem_filter, bne_iff_ne, ne_eq] at hr
    exact ⟨hr.1, hr.2⟩

theorem isNone_false_of_ne_none {o : Option β} (h : o ≠ none) : o.isNone = false := by
  cases o
  · exact absurd rfl h
  · rfl

theorem pairwise_phase_of_const (c : Nat) (l : List DelEvent)
    (h : ∀ e ∈ l, DelEvent.phase e = c) :
    l.Pairwise (fun a b => a.phase ≤ b.phase) := by
  induction l with
  | nil => exact List.Pairwise.nil
  | cons x xs ih =>
    refine List.Pairwise.cons ?_ (ih (fun e he => h e (List.mem_cons_of_mem x he)))
    intro y hy
    rw [h x (List.mem_cons_self x xs), h y (List.mem_cons_of_mem x hy)]

theorem pairwise_phase_append (l₁ l₂ : List DelEvent) (c : Nat)
    (h₁ : ∀ e ∈ l₁, e.phase ≤ c) (h₂ : ∀ e ∈ l₂, c ≤ e.phase)
    (p₁ : l₁.Pairwise (fun a b => a.phase ≤ b.phase))
    (p₂ : l₂.Pairwise (fun a b => a.phase ≤ b.phase)) :
    (l₁ ++ l₂).Pairwise (fun a b => a.phase ≤ b.phase) := by
  refine List.pairwise_append.mpr ⟨p₁, p₂, ?_⟩
  intro a ha b hb
  exact Nat.le_trans (h₁ a ha) (h₂ b hb)

theorem phase_bound_append {l₁ l₂ : List DelEvent} {c : Nat}
    (h₁ : ∀ e ∈ l₁, e.phase ≤ c) (h₂ : ∀ e ∈ l₂, e.phase ≤ c) :
    ∀ e ∈ l₁ ++ l₂, e.phase ≤ c := by
  intro e he
  rcases List.mem_append.mp he with h | h
  · exact h₁ e h
  · exact h₂ e h

theorem purge_db_eq (db : DB) (pid : Nat) :
    (purge_project db pid).1 =
      { projects := { db.projects with rows := db.projects.rows.filter (fun p => p.id != pid) }
        shots := { db.shots with rows := db.shots.rows.filter (fun s => s.project_id != pid) }
        assets := { db.assets with rows := db.assets.rows.filter (fun a => !assetUnder db pid a) }
        tasks := { db.tasks with rows := db.tasks.rows.filter (fun r => !(assetIdsUnder db pid).contains r.asset_id) }
        approvals := { db.approvals with rows := db.approvals.rows.filter (fun r => !(assetIdsUnder db pid).contains r.asset_id) }
        schedules := { db.schedules with rows := db.schedules.rows.filter (fun r => !(assetIdsUnder db pid).contains r.asset_id) } } :=
  rfl

theorem purge_trace_eq (db : DB) (pid : Nat) :
    (purge_project db pid).2 =
      (db.schedules.rows.filter (fun r => (assetIdsUnder db pid).contains r.asset_id)).map
          (fun r => DelEvent.schedule r.id) ++
        (db.approvals.rows.filter (fun r => (assetIdsUnder db pid).contains r.asset_id)).map
          (fun r => DelEvent.approval r.id) ++
        (db.tasks.rows.filter (fun r => (assetIdsUnder db pid).contains r.asset_id)).map
          (fun r => DelEvent.task r.id) ++
        (assetIdsUnder db pid).map DelEvent.asset ++
        (shotIdsOf db pid).map DelEvent.shot ++
        [DelEvent.project pid] :=
  rfl

theorem upd_project_block (db : DB) (i : Nat) :
    ∀ nm cd : Option String,
      ((nm = none ∧ cd = none) → update_project db i nm cd = (false, db)) ∧
      ((nm ≠ none ∨ cd ≠ none) → (update_project db i nm cd).1 = true) ∧
      (update_project db i nm cd).2.shots = db.shots ∧
      (update_project db i nm cd).2.assets = db.assets ∧
      (update_project db i nm cd).2.tasks = db.tasks ∧
      (update_project db i nm cd).2.approvals = db.approvals ∧
      (update_project db i nm cd).2.schedules = db.schedules ∧
      (update_project db i nm cd).2.projects.seq = db.projects.seq ∧
      (∀ r ∈ db.projects.rows, r.id ≠ i → r ∈ (update_project db i nm cd).2.projects.rows) ∧
      (∀ r ∈ db.projects.rows, r.id = i →
        ({ r with name := nm.getD r.name, code := cd.getD r.code } : ProjectRow) ∈
          (update_project db i nm cd).2.projects.rows) := by
  intro nm cd
  refine ⟨?_, ?_, ?_, ?_, ?_, ?_, ?_, ?_, ?_, ?_⟩
  · rintro ⟨rfl, rfl⟩
    rfl
  · intro h
    have hc : (nm.isNone && cd.isNone) = false := by
      rcases h with h | h <;> simp [isNone_false_of_ne_none h]
    simp [update_project, hc]
  · rw [update_project]
    split <;> rfl
  · rw [update_project]
    split <;> rfl
  · rw [update_project]
    split <;> rfl
  · rw [update_project]
    split <;> rfl
  · rw [update_project]
    split <;> rfl
  · rw [update_project]
    split <;> rfl
  · intro r hr hne
    rw [update_project]
    split
    · exact hr
    · exact updateRows_keep ProjectRow.id _ i db.projects.rows r hr hne
  · intro r hr he
    rw [update_project]
    split
    · rename_i hcond
      simp only [Bool.and_eq_true, Option.isNone_iff_eq_none] at hcond
      obtain ⟨rfl, rfl⟩ := hcond
      simpa using hr
    · exact updateRows_hit ProjectRow.id _ i db.projects.rows r hr he

theorem upd_shot_block (db : DB) (i : Nat) :
    ∀ (pid : Option Nat) (cd nm : Option String),
      ((pid = none ∧ cd = none ∧ nm = none) → update_shot db i pid cd nm = (false, db)) ∧
      ((pid ≠ none ∨ cd ≠ none ∨ nm ≠ none) → (update_shot db i pid cd nm).1 = true) ∧
      (update_shot db i pid cd nm).2.projects = db.projects ∧
      (update_shot db i pid cd nm).2.assets = db.assets ∧
      (update_shot db i pid cd nm).2.tasks = db.tasks ∧
      (update_shot db i pid cd nm).2.approvals = db.approvals ∧
      (update_shot db i pid cd nm).2.schedules = db.schedules ∧
      (update_shot db i pid cd nm).2.shots.seq = db.shots.seq ∧
      (∀ r ∈ db.shots.rows, r.id ≠ i → r ∈ (update_shot db i pid cd nm).2.shots.rows) ∧
      (∀ r ∈ db.shots.rows, r.id = i →
        ({ r with project_id := pid.getD r.project_id, code := cd.getD r.code,
                  name := nm.getD r.name } : ShotRow) ∈
          (update_shot db i pid cd nm).2.shots.rows) := by
  intro pid cd nm
  refine ⟨?_, ?_, ?_, ?_, ?_, ?_, ?_, ?_, ?_, ?_⟩
  · rintro ⟨rfl, rfl, rfl⟩
    rfl
  · intro h
    have hc : (pid.isNone && (cd.isNone && nm.isNone)) = false := by
      rcases h with h | h | h <;> simp [isNone_false_of_ne_none h]
    simp [update_shot, hc]
  · rw [update_shot]
    split <;> rfl
  · rw [update_shot]
    split <;> rfl
  · rw [update_shot]
    split <;> rfl
  · rw [update_shot]
    split <;> rfl
  · rw [update_shot]
    split <;> rfl
  · rw [update_shot]
    split <;> rfl
  · intro r hr hne
    rw [update_shot]
    split
    · exact hr
    · exact updateRows_keep ShotRow.id _ i db.shots.rows r hr hne
  · intro r hr he
    rw [update_shot]
    split
    · rename_i hcond
      simp only [Bool.and_eq_true, Option.isNone_iff_eq_none] at hcond
      obtain ⟨rfl, rfl, rfl⟩ := hcond
      simpa using hr
    · exact updateRows_hit ShotRow.id _ i db.shots.rows r hr he

theorem upd_asset_block (db : DB) (i : Nat) :
    ∀ (nm ty st : Option String) (pid sid : Option Nat),
      ((nm = none ∧ ty = none ∧ st = none ∧ pid = none ∧ sid = none) →
        update_asset db i nm ty st pid sid = (false, db)) ∧
      ((nm ≠ none ∨ ty ≠ none ∨ st ≠ none ∨ pid ≠ none ∨ sid ≠ none) →
        (update_asset db i nm ty st pid sid).1 = true) ∧
      (update_asset db i nm ty st pid sid).2.projects = db.projects ∧
      (update_asset db i nm ty st pid sid).2.shots = db.shots ∧
      (update_asset db i nm ty st pid sid).2.tasks = db.tasks ∧
      (update_asset db i nm ty st pid sid).2.approvals = db.approvals ∧
      (update_asset db i nm ty st pid sid).2.schedules = db.schedules ∧
      (update_asset db i nm ty st pid sid).2.assets.seq = db.assets.seq ∧
      (∀ r ∈ db.assets.rows, r.id ≠ i → r ∈ (update_asset db i nm ty st pid sid).2.assets.rows) ∧
      (∀ r ∈ db.assets.rows, r.id = i →
        ({ r with name := nm.getD r.name, asset_type := ty.getD r.asset_type,
                  status := st.getD r.status,
                  project_id := match pid with | some p => some p | none => r.project_id,
                  shot_id := match sid with | some s => some s | none => r.shot_id } : AssetRow) ∈
          (update_asset db i nm ty st pid sid).2.assets.rows) := by
  intro nm ty st pid sid
  refine ⟨?_, ?_, ?_, ?_, ?_, ?_, ?_, ?_, ?_, ?_⟩
  · rintro ⟨rfl, rfl, rfl, rfl, rfl⟩
    rfl
  · intro h
    have hc : (nm.isNone && (ty.isNone && (st.isNone && (pid.isNone && sid.isNone)))) = false := by
      rcases h with h | h | h | h | h <;> simp [isNone_false_of_ne_none h]
    simp [update_asset, hc]
  · rw [update_asset]
    split <;> rfl
  · rw [update_asset]
    split <;> rfl
  · rw [update_asset]
    split <;> rfl
  · rw [update_asset]
    split <;> rfl
  · rw [update_asset]
    split <;> rfl
  · rw [update_asset]
    split <;> rfl
  · intro r hr hne
    rw [update_asset]
    split
    · exact hr
    · exact updateRows_keep AssetRow.id _ i db.assets.rows r hr hne
  · intro r hr he
    rw [update_asset]
    split
    · rename_i hcond
      simp only [Bool.and_eq_true, Option.isNone_iff_eq_none] at hcond
      obtain ⟨rfl, rfl, rfl, rfl, rfl⟩ := hcond
      simpa using hr
    · exact updateRows_hit AssetRow.id _ i db.assets.rows r hr he

theorem upd_task_block (db : DB) (i : Nat) :
    ∀ (nm st asg due : Option String),
      ((nm = none ∧ st = none ∧ asg = none ∧ due = none) →
        update_task db i nm st asg due = (false, db)) ∧
      ((nm ≠ none ∨ st ≠ none ∨ asg ≠ none ∨ due ≠ none) →
        (update_task db i nm st asg due).1 = true) ∧
      (update_task db i nm st asg due).2.projects = db.projects ∧
      (update_task db i nm st asg due).2.shots = db.shots ∧
      (update_task db i nm st asg due).2.assets = db.assets ∧
      (update_task db i nm st asg due).2.approvals = db.approvals ∧
      (update_task db i nm st asg due).2.schedules = db.schedules ∧
      (update_task db i nm st asg due).2.tasks.seq = db.tasks.seq ∧
      (∀ r ∈ db.tasks.rows, r.id ≠ i → r ∈ (update_task db i nm st asg due).2.tasks.rows) ∧
      (∀ r ∈ db.tasks.rows, r.id = i →
        ({ r with name := nm.getD r.name, status := st.getD r.status,
                  assignee := match asg with | some a => some a | none => r.assignee,
                  due_date := match due with | some d => some d | none => r.due_date } : TaskRow) ∈
          (update_task db i nm st asg due).2.tasks.rows) := by
  intro nm st asg due
  refine ⟨?_, ?_, ?_, ?_, ?_, ?_, ?_, ?_, ?_, ?_⟩
  · rintro ⟨rfl, rfl, rfl, rfl⟩
    rfl
  · intro h
    have hc : (nm.isNone && (st.isNone && (asg.isNone && due.isNone))) = false := by
      rcases h with h | h | h | h <;> simp [isNone_false_of_ne_none h]
    simp [update_task, hc]
  · rw [update_task]
    split <;> rfl
  · rw [update_task]
    split <;> rfl
  · rw [update_task]
    split <;> rfl
  · rw [update_task]
    split <;> rfl
  · rw [update_task]
    split <;> rfl
  · rw [update_task]
    split <;> rfl
  · intro r hr hne
    rw [update_task]
    split
    · exact hr
    · exact updateRows_keep TaskRow.id _ i db.tasks.rows r hr hne
  · intro r hr he
    rw [update_task]
    split
    · rename_i hcond
      simp only [Bool.and_eq_true, Option.isNone_iff_eq_none] at hcond
      obtain ⟨rfl, rfl, rfl, rfl⟩ := hcond
      simpa using hr
    · exact updateRows_hit TaskRow.id _ i db.tasks.rows r hr he

theorem upd_approval_block (db : DB) (i : Nat) :
    ∀ (aid : Option Nat) (st nt : Option String),
      ((aid = none ∧ st = none ∧ nt = none) → update_approval db i aid st nt = (false, db)) ∧
      ((aid ≠ none ∨ st ≠ none ∨ nt ≠ none) → (update_approval db i aid st nt).1 = true) ∧
      (update_approval db i aid st nt).2.projects = db.projects ∧
      (update_approval db i aid st nt).2.shots = db.shots ∧
      (update_approval db i aid st nt).2.assets = db.assets ∧
      (update_approval db i aid st nt).2.tasks = db.tasks ∧
      (update_approval db i aid st nt).2.schedules = db.schedules ∧
      (update_approval db i aid st nt).2.approvals.seq = db.approvals.seq ∧
      (∀ r ∈ db.approvals.rows, r.id ≠ i → r ∈ (update_approval db i aid st nt).2.approvals.rows) ∧
      (∀ r ∈ db.approvals.rows, r.id = i →
        ({ r with asset_id := aid.getD r.asset_id, status := st.getD r.status,
                  note := match nt with | some n => some n | none => r.note } : ApprovalRow) ∈
          (update_approval db i aid st nt).2.approvals.rows) := by
  intro aid st nt
  refine ⟨?_, ?_, ?_, ?_, ?_, ?_, ?_, ?_, ?_, ?_⟩
  · rintro ⟨rfl, rfl, rfl⟩
    rfl
  · intro h
    have hc : (aid.isNone && (st.isNone && nt.isNone)) = false := by
      rcases h with h | h | h <;> simp [isNone_false_of_ne_none h]
    simp [update_approval, hc]
  · rw [update_approval]
    split <;> rfl
  · rw [update_approval]
    split <;> rfl
  · rw [update_approval]
    split <;> rfl
  · rw [update_approval]
    split <;> rfl
  · rw [update_approval]
    split <;> rfl
  · rw [update_approval]
    split <;> rfl
  · intro r hr hne
    rw [update_approval]
    split
    · exact hr
    · exact updateRows_keep ApprovalRow.id _ i db.approvals.rows r hr hne
  · intro r hr he
    rw [update_approval]
    split
    · rename_i hcond
      simp only [Bool.and_eq_true, Option.isNone_iff_eq_none] at hcond
      obtain ⟨rfl, rfl, rfl⟩ := hcond
      simpa using hr
    · exact updateRows_hit ApprovalRow.id _ i db.approvals.rows r hr he

theorem upd_schedule_block (db : DB) (i : Nat) :
    ∀ (aid : Option Nat) (tk due st : Option String),
      ((aid = none ∧ tk = none ∧ due = none ∧ st = none) →
        update_schedule db i aid tk due st = (false, db)) ∧
      ((aid ≠ none ∨ tk ≠ none ∨ due ≠ none ∨ st ≠ none) →
        (update_schedule db i aid tk due st).1 = true) ∧
      (update_schedule db i aid tk due st).2.projects = db.projects ∧
      (update_schedule db i aid tk due st).2.shots = db.shots ∧
      (update_schedule db i aid tk due st).2.assets = db.assets ∧
      (update_schedule db i aid tk due st).2.tasks = db.tasks ∧
      (update_schedule db i aid tk due st).2.approvals = db.approvals ∧
      (update_schedule db i aid tk due st).2.schedules.seq = db.schedules.seq ∧
      (∀ r ∈ db.schedules.rows, r.id ≠ i →
        r ∈ (update_schedule db i aid tk due st).2.schedules.rows) ∧
      (∀ r ∈ db.schedules.rows, r.id = i →
        ({ r with asset_id := aid.getD r.asset_id, task := tk.getD r.task,
                  due_date := due.getD r.due_date, status := st.getD r.status } : ScheduleRow) ∈
          (update_schedule db i aid tk due st).2.schedules.rows) := by
  intro aid tk due st
  refine ⟨?_, ?_, ?_, ?_, ?_, ?_, ?_, ?_, ?_, ?_⟩
  · rintro ⟨rfl, rfl, rfl, rfl⟩
    rfl
  · intro h
    have hc : (aid.isNone && (tk.isNone && (due.isNone && st.isNone))) = false := by
      rcases h with h | h | h | h <;> simp [isNone_false_of_ne_none h]
    simp [update_schedule, hc]
  · rw [update_schedule]
    split <;> rfl
  · rw [update_schedule]
    split <;> rfl
  · rw [update_schedule]
    split <;> rfl
  · rw [update_schedule]
    split <;> rfl
  · rw [update_schedule]
    split <;> rfl
  · rw [update_schedule]
    split <;> rfl
  · intro r hr hne
    rw [update_schedule]
    split
    · exact hr
    · exact updateRows_keep ScheduleRow.id _ i db.schedules.rows r hr hne
  · intro r hr he
    rw [update_schedule]
    split
    · rename_i hcond
      simp only [Bool.and_eq_true, Option.isNone_iff_eq_none] at hcond
      obtain ⟨rfl, rfl, rfl, rfl⟩ := hcond
      simpa using hr
    · exact updateRows_hit ScheduleRow.id _ i db.schedules.rows r hr he

/-- C4. For every entity kind, a partial update applies only the fields
explicitly supplied: with no field supplied it returns `false` and leaves
the datastore completely unchanged; with at least one field supplied it
returns `true`, rewrites only the targeted row (unsupplied fields, the id
and the creation timestamp kept), keeps every other row, and leaves every
other table untouched. -/
theorem update_applies_only_supplied_fields (db : DB) (i : Nat) :
    (∀ nm cd : Option String,
      ((nm = none ∧ cd = none) → update_project db i nm cd = (false, db)) ∧
      ((nm ≠ none ∨ cd ≠ none) → (update_project db i nm cd).1 = true) ∧
      (update_project db i nm cd).2.shots = db.shots ∧
      (update_project db i nm cd).2.assets = db.assets ∧
      (update_project db i nm cd).2.tasks = db.tasks ∧
      (update_project db i nm cd).2.approvals = db.approvals ∧
      (update_project db i nm cd).2.schedules = db.schedules ∧
      (update_project db i nm cd).2.projects.seq = db.projects.seq ∧
      (∀ r ∈ db.projects.rows, r.id ≠ i → r ∈ (update_project db i nm cd).2.projects.rows) ∧
      (∀ r ∈ db.projects.rows, r.id = i →
        ({ r with name := nm.getD r.name, code := cd.getD r.code } : ProjectRow) ∈
          (update_project db i nm cd).2.projects.rows)) ∧
    (∀ (pid : Option Nat) (cd nm : Option String),
      ((pid = none ∧ cd = none ∧ nm = none) → update_shot db i pid cd nm = (false, db)) ∧
      ((pid ≠ none ∨ cd ≠ none ∨ nm ≠ none) → (update_shot db i pid cd nm).1 = true) ∧
      (update_shot db i pid cd nm).2.projects = db.projects ∧
      (update_shot db i pid cd nm).2.assets = db.assets ∧
      (update_shot db i pid cd nm).2.tasks = db.tasks ∧
      (update_shot db i pid cd nm).2.approvals = db.approvals ∧
      (update_shot db i pid cd nm).2.schedules = db.schedules ∧
      (update_shot db i pid cd nm).2.shots.seq = db.shots.seq ∧
      (∀ r ∈ db.shots.rows, r.id ≠ i → r ∈ (update_shot db i pid cd nm).2.shots.rows) ∧
      (∀ r ∈ db.shots.rows, r.id = i →
        ({ r with project_id := pid.getD r.project_id, code := cd.getD r.code,
                  name := nm.getD r.name } : ShotRow) ∈
          (update_shot db i pid cd nm).2.shots.rows)) ∧
    (∀ (nm ty st : Option String) (pid sid : Option Nat),
      ((nm = none ∧ ty = none ∧ st = none ∧ pid = none ∧ sid = none) →
        update_asset db i nm ty st pid sid = (false, db)) ∧
      ((nm ≠ none ∨ ty ≠ none ∨ st ≠ none ∨ pid ≠ none ∨ sid ≠ none) →
        (update_asset db i nm ty st pid sid).1 = true) ∧
      (update_asset db i nm ty st pid sid).2.projects = db.projects ∧
      (update_asset db i nm ty st pid sid).2.shots = db.shots ∧
      (update_asset db i nm ty st pid sid).2.tasks = db.tasks ∧
      (update_asset db i nm ty st pid sid).2.approvals = db.approvals ∧
      (update_asset db i nm ty st pid sid).2.schedules = db.schedules ∧
      (update_asset db i nm ty st pid sid).2.assets.seq = db.assets.seq ∧
      (∀ r ∈ db.assets.rows, r.id ≠ i → r ∈ (update_asset db i nm ty st pid sid).2.assets.rows) ∧
      (∀ r ∈ db.assets.rows, r.id = i →
        ({ r with name := nm.getD r.name, asset_type := ty.getD r.asset_type,
                  status := st.getD r.status,
                  project_id := match pid with | some p => some p | none => r.project_id,
                  shot_id := match sid with | some s => some s | none => r.shot_id } : AssetRow) ∈
          (update_asset db i nm ty st pid sid).2.assets.rows)) ∧
    (∀ (nm st asg due : Option String),
      ((nm = none ∧ st = none ∧ asg = none ∧ due = none) →
        update_task db i nm st asg due = (false, db)) ∧
      ((nm ≠ none ∨ st ≠ none ∨ asg ≠ none ∨ due ≠ none) →
        (update_task db i nm st asg due).1 = true) ∧
      (update_task db i nm st asg due).2.projects = db.projects ∧
      (update_task db i nm st asg due).2.shots = db.shots ∧
      (update_task db i nm st asg due).2.assets = db.assets ∧
      (update_task db i nm st asg due).2.approvals = db.approvals ∧
      (update_task db i nm st asg due).2.schedules = db.schedules ∧
      (update_task db i nm st asg due).2.tasks.seq = db.tasks.seq ∧
      (∀ r ∈ db.tasks.rows, r.id ≠ i → r ∈ (update_task db i nm st asg due).2.tasks.rows) ∧
      (∀ r ∈ db.tasks.rows, r.id = i →
        ({ r with name := nm.getD r.name, status := st.getD r.status,
                  assignee := match asg with | some a => some a | none => r.assignee,
                  due_date := match due with | some d => some d | none => r.due_date } : TaskRow) ∈
          (update_task db i nm st asg due).2.tasks.rows)) ∧
    (∀ (aid : Option Nat) (st nt : Option String),
      ((aid = none ∧ st = none ∧ nt = none) → update_approval db i aid st nt = (false, db)) ∧
      ((aid ≠ none ∨ st ≠ none ∨ nt ≠ none) → (update_approval db i aid st nt).1 = true) ∧
      (update_approval db i aid st nt).2.projects = db.projects ∧
      (update_approval db i aid st nt).2.shots = db.shots ∧
      (update_approval db i aid st nt).2.assets = db.assets ∧
      (update_approval db i aid st nt).2.tasks = db.tasks ∧
      (update_approval db i aid st nt).2.schedules = db.schedules ∧
      (update_approval db i aid st nt).2.approvals.seq = db.approvals.seq ∧
      (∀ r ∈ db.approvals.rows, r.id ≠ i → r ∈ (update_approval db i aid st nt).2.approvals.rows) ∧
      (∀ r ∈ db.approvals.rows, r.id = i →
        ({ r with asset_id := aid.getD r.asset_id, status := st.getD r.status,
                  note := match nt with | some n => some n | none => r.note } : ApprovalRow) ∈
          (update_approval db i aid st nt).2.approvals.rows)) ∧
    (∀ (aid : Option Nat) (tk due st : Option String),
      ((aid = none ∧ tk = none ∧ due = none ∧ st = none) →
        update_schedule db i aid tk due st = (false, db)) ∧
      ((aid ≠ none ∨ tk ≠ none ∨ due ≠ none ∨ st ≠ none) →
        (update_schedule db i aid tk due st).1 = true) ∧
      (update_schedule db i aid tk due st).2.projects = db.projects ∧
      (update_schedule db i aid tk due st).2.shots = db.shots ∧
      (update_schedule db i aid tk due st).2.assets = db.assets ∧
      (update_schedule db i aid tk due st).2.tasks = db.tasks ∧
      (update_schedule db i aid tk due st).2.approvals = db.approvals ∧
      (update_schedule db i aid tk due st).2.schedules.seq = db.schedules.seq ∧
      (∀ r ∈ db.schedules.rows, r.id ≠ i →
        r ∈ (update_schedule db i aid tk due st).2.schedules.rows) ∧
      (∀ r ∈ db.schedules.rows, r.id = i →
        ({ r with asset_id := aid.getD r.asset_id, task := tk.getD r.task,
                  due_date := due.getD r.due_date, status := st.getD r.status } : ScheduleRow) ∈
          (update_schedule db i aid tk due st).2.schedules.rows)) :=
  ⟨upd_project_block db i, upd_shot_block db i, upd_asset_block db i,
   upd_task_block db i, upd_approval_block db i, upd_schedule_block db i⟩

/-- C5. For every entity kind, the single-entity delete removes exactly
the one row with the given id and touches no other row of any table: in
particular, deleting an Asset leaves its dependent Tasks, Approvals and
Schedules in place (orphaned) — the narrow delete never cascades. -/
theorem single_delete_removes_exactly_one_row (db : DB) (i : Nat) :
    (project_exists (delete_project db i) i = false ∧
      (∀ r ∈ db.projects.rows, r.id ≠ i → r ∈ (delete_project db i).projects.rows) ∧
      (∀ r ∈ (delete_project db i).projects.rows, r ∈ db.projects.rows ∧ r.id ≠ i) ∧
      (delete_project db i).shots = db.shots ∧
      (delete_project db i).assets = db.assets ∧
      (delete_project db i).tasks = db.tasks ∧
      (delete_project db i).approvals = db.approvals ∧
      (delete_project db i).schedules = db.schedules) ∧
    (shot_exists (delete_shot db i) i = false ∧
      (∀ r ∈ db.shots.rows, r.id ≠ i → r ∈ (delete_shot db i).shots.rows) ∧
      (∀ r ∈ (delete_shot db i).shots.rows, r ∈ db.shots.rows ∧ r.id ≠ i) ∧
      (delete_shot db i).projects = db.projects ∧
      (delete_shot db i).assets = db.assets ∧
      (delete_shot db i).tasks = db.tasks ∧
      (delete_shot db i).approvals = db.approvals ∧
      (delete_shot db i).schedules = db.schedules) ∧
    (asset_exists (delete_asset db i) i = false ∧
      (∀ r ∈ db.assets.rows, r.id ≠ i → r ∈ (delete_asset db i).assets.rows) ∧
      (∀ r ∈ (delete_asset db i).assets.rows, r ∈ db.assets.rows ∧ r.id ≠ i) ∧
      (delete_asset db i).projects = db.projects ∧
      (delete_asset db i).shots = db.shots ∧
      (delete_asset db i).tasks = db.tasks ∧
      (delete_asset db i).approvals = db.approvals ∧
      (delete_asset db i).schedules = db.schedules) ∧
    (task_exists (delete_task db i) i = false ∧
      (∀ r ∈ db.tasks.rows, r.id ≠ i → r ∈ (delete_task db i).tasks.rows) ∧
      (∀ r ∈ (delete_task db i).tasks.rows, r ∈ db.tasks.rows ∧ r.id ≠ i) ∧
      (delete_task db i).projects = db.projects ∧
      (delete_task db i).shots = db.shots ∧
      (delete_task db i).assets = db.assets ∧
      (delete_task db i).approvals = db.approvals ∧
      (delete_task db i).schedules = db.schedules) ∧
    (approval_exists (delete_approval db i) i = false ∧
      (∀ r ∈ db.approvals.rows, r.id ≠ i → r ∈ (delete_approval db i).approvals.rows) ∧
      (∀ r ∈ (delete_approval db i).approvals.rows, r ∈ db.approvals.rows ∧ r.id ≠ i) ∧
      (delete_approval db i).projects = db.projects ∧
      (delete_approval db i).shots = db.shots ∧
      (delete_approval db i).assets = db.assets ∧
      (delete_approval db i).tasks = db.tasks ∧
      (delete_approval db i).schedules = db.schedules) ∧
    (schedule_exists (delete_schedule db i) i = false ∧
      (∀ r ∈ db.schedules.rows, r.id ≠ i → r ∈ (delete_schedule db i).schedules.rows) ∧
      (∀ r ∈ (delete_schedule db i).schedules.rows, r ∈ db.schedules.rows ∧ r.id ≠ i) ∧
      (delete_schedule db i).projects = db.projects ∧
      (delete_schedule db i).shots = db.shots ∧
      (delete_schedule db i).assets = db.assets ∧
      (delete_schedule db i).tasks = db.tasks ∧
      (delete_schedule db i).approvals = db.approvals) := by
  refine ⟨⟨?_, ?_, ?_, rfl, rfl, rfl, rfl, rfl⟩, ⟨?_, ?_, ?_, rfl, rfl, rfl, rfl, rfl⟩,
    ⟨?_, ?_, ?_, rfl, rfl, rfl, rfl, rfl⟩, ⟨?_, ?_, ?_, rfl, rfl, rfl, rfl, rfl⟩,
    ⟨?_, ?_, ?_, rfl, rfl, rfl, rfl, rfl⟩, ⟨?_, ?_, ?_, rfl, rfl, rfl, rfl, rfl⟩⟩
  · exact (deleteById_spec ProjectRow.id db.projects i).1
  · exact (deleteById_spec ProjectRow.id db.projects i).2.1
  · exact (deleteById_spec ProjectRow.id db.projects i).2.2.1
  · exact (deleteById_spec ShotRow.id db.shots i).1
  · exact (deleteById_spec ShotRow.id db.shots i).2.1
  · exact (deleteById_spec ShotRow.id db.shots i).2.2.1
  · exact (deleteById_spec AssetRow.id db.assets i).1
  · exact (deleteById_spec AssetRow.id db.assets i).2.1
  · exact (deleteById_spec AssetRow.id db.assets i).2.2.1
  · exact (deleteById_spec TaskRow.id db.tasks i).1
  · exact (deleteById_spec TaskRow.id db.tasks i).2.1
  · exact (deleteById_spec TaskRow.id db.tasks i).2.2.1
  · exact (deleteById_spec ApprovalRow.id db.approvals i).1
  · exact (deleteById_spec ApprovalRow.id db.approvals i).2.1
  · exact (deleteById_spec ApprovalRow.id db.approvals i).2.2.1
  · exact (deleteById_spec ScheduleRow.id db.schedules i).1
  · exact (deleteById_spec ScheduleRow.id db.schedules i).2.1
  · exact (deleteById_spec ScheduleRow.id db.schedules i).2.2.1

/-- C1. After `purge(P)`: no Shot of project `P` remains, no Asset under
`P` (directly via `project_id` or via one of `P`'s pre-purge Shots)
remains, no Task, Approval or Schedule referencing such an Asset remains,
the project row itself is gone, `list_shots`/`list_assets` filtered by
`P`'s id return empty — and the deletion trace is ordered children before
parents: Schedules, then Approvals, then Tasks, then Assets, then Shots,
then the Project row. -/
theorem purge_cascade_complete_and_ordered (db : DB) (pid : Nat) :
    (∀ s ∈ (purge_project db pid).1.shots.rows, s.project_id ≠ pid) ∧
    (∀ a ∈ (purge_project db pid).1.assets.rows, assetUnder db pid a = false) ∧
    (∀ t ∈ (purge_project db pid).1.tasks.rows, t.asset_id ∉ assetIdsUnder db pid) ∧
    (∀ a ∈ (purge_project db pid).1.approvals.rows, a.asset_id ∉ assetIdsUnder db pid) ∧
    (∀ s ∈ (purge_project db pid).1.schedules.rows, s.asset_id ∉ assetIdsUnder db pid) ∧
    (∀ p ∈ (purge_project db pid).1.projects.rows, p.id ≠ pid) ∧
    list_shots (purge_project db pid).1 (some pid) = [] ∧
    list_assets (purge_project db pid).1 (some pid) none = [] ∧
    (purge_project db pid).2.Pairwise (fun e₁ e₂ => e₁.phase ≤ e₂.phase) := by
  rw [purge_db_eq, purge_trace_eq]
  refine ⟨?_, ?_, ?_, ?_, ?_, ?_, ?_, ?_, ?_⟩
  · intro s hs
    simp only [List.mem_filter, bne_iff_ne, ne_eq] at hs
    exact hs.2
  · intro a ha
    simp only [List.mem_filter, Bool.not_eq_eq_eq_not, Bool.not_true] at ha
    exact ha.2
  · intro t ht
    simp only [List.mem_filter, Bool.not_eq_eq_eq_not, Bool.not_true] at ht
    have h2 := ht.2
    intro hmem
    simp [List.any_eq_true, List.contains_eq_any_beq] at h2
    exact h2 hmem
  · intro a ha
    simp only [List.mem_filter, Bool.not_eq_eq_eq_not, Bool.not_true] at ha
    have h2 := ha.2
    intro hmem
    simp [List.any_eq_true, List.contains_eq_any_beq] at h2
    exact h2 hmem
  · intro s hs
    simp only [List.mem_filter, Bool.not_eq_eq_eq_not, Bool.not_true] at hs
    have h2 := hs.2
    intro hmem
    simp [List.any_eq_true, List.contains_eq_any_beq] at h2
    exact h2 hmem
  · intro p hp
    simp only [List.mem_filter, bne_iff_ne, ne_eq] at hp
    exact hp.2
  · rw [list_shots]
    have hnil : (db.shots.rows.filter (fun s => s.project_id != pid)).filter
        (fun s => s.project_id == pid) = [] := by
      rw [List.filter_eq_nil_iff]
      intro s hs
      simp only [List.mem_filter, bne_iff_ne, ne_eq] at hs
      simp [hs.2]
    simp only [hnil]
    rfl
  · rw [list_assets]
    have hnil : (db.assets.rows.filter (fun a => !assetUnder db pid a)).filter
        (assetMatches (some pid) none) = [] := by
      rw [List.filter_eq_nil_iff]
      intro a ha
      simp only [List.mem_filter, Bool.not_eq_eq_eq_not, Bool.not_true] at ha
      have h2 := ha.2
      simp only [assetUnder, Bool.or_eq_false_iff] at h2
      simp [assetMatches, h2.1]
    simp only [hnil]
    rfl
  · have hSch : ∀ e ∈ (db.schedules.rows.filter
        (fun r => (assetIdsUnder db pid).contains r.asset_id)).map
        (fun r => DelEvent.schedule r.id), DelEvent.phase e = 0 := by
      intro e he
      simp only [List.mem_map] at he
      obtain ⟨r, _, rfl⟩ := he
      rfl
    have hApp : ∀ e ∈ (db.approvals.rows.filter
        (fun r => (assetIdsUnder db pid).contains r.asset_id)).map
        (fun r => DelEvent.approval r.id), DelEvent.phase e = 1 := by
      intro e he
      simp only [List.mem_map] at he
      obtain ⟨r, _, rfl⟩ := he
      rfl
    have hTsk : ∀ e ∈ (db.tasks.rows.filter
        (fun r => (assetIdsUnder db pid).contains r.asset_id)).map
        (fun r => DelEvent.task r.id), DelEvent.phase e = 2 := by
      intro e he
      simp only [List.mem_map] at he
      obtain ⟨r, _, rfl⟩ := he
      rfl
    have hAst : ∀ e ∈ (assetIdsUnder db pid).map DelEvent.asset, DelEvent.phase e = 3 := by
      intro e he
      simp only [List.mem_map] at he
      obtain ⟨r, _, rfl⟩ := he
      rfl
    have hSht : ∀ e ∈ (shotIdsOf db pid).map DelEvent.shot, DelEvent.phase e = 4 := by
      intro e he
      simp only [List.mem_map] at he
      obtain ⟨r, _, rfl⟩ := he
      rfl
    have hPrj : ∀ e ∈ [DelEvent.project pid], DelEvent.phase e = 5 := by
      intro e he
      simp only [List.mem_singleton] at he
      subst he
      rfl
    have le_of_const : ∀ (c c' : Nat) (l : List DelEvent),
        (∀ e ∈ l, DelEvent.phase e = c) → c ≤ c' → ∀ e ∈ l, DelEvent.phase e ≤ c' := by
      intro c c' l h hcc e he
      rw [h e he]
      exact hcc
    have p1 := pairwise_phase_append _ _ 1
      (le_of_const 0 1 _ hSch (by omega))
      (fun e he => (hApp e he).ge)
      (pairwise_phase_of_const 0 _ hSch)
      (pairwise_phase_of_const 1 _ hApp)
    have b1 := phase_bound_append (le_of_const 0 2 _ hSch (by omega)) (le_of_const 1 2 _ hApp (by omega))
    have p2 := pairwise_phase_append _ _ 2 b1
      (fun e he => (hTsk e he).ge)
      p1
      (pairwise_phase_of_const 2 _ hTsk)
    have b2 := phase_bound_append
      (phase_bound_append (le_of_const 0 3 _ hSch (by omega)) (le_of_const 1 3 _ hApp (by omega)))
      (le_of_const 2 3 _ hTsk (by omega))
    have p3 := pairwise_phase_append _ _ 3 b2
      (fun e he => (hAst e he).ge)
      p2
      (pairwise_phase_of_const 3 _ hAst)
    have b3 := phase_bound_append (phase_bound_append
      (phase_bound_append (le_of_const 0 4 _ hSch (by omega)) (le_of_const 1 4 _ hApp (by omega)))
      (le_of_const 2 4 _ hTsk (by omega)))
      (le_of_const 3 4 _ hAst (by omega))
    have p4 := pairwise_phase_append _ _ 4 b3
      (fun e he => (hSht e he).ge)
      p3
      (pairwise_phase_of_const 4 _ hSht)
    have b4 := phase_bound_append (phase_bound_append (phase_bound_append
      (phase_bound_append (le_of_const 0 5 _ hSch (by omega)) (le_of_const 1 5 _ hApp (by omega)))
      (le_of_const 2 5 _ hTsk (by omega)))
      (le_of_const 3 5 _ hAst (by omega)))
      (le_of_const 4 5 _ hSht (by omega))
    exact pairwise_phase_append _ _ 5 b4
      (fun e he => (hPrj e he).ge)
      p4
      (pairwise_phase_of_const 5 _ hPrj)

end PipelineTools
